import Mathlib

set_option linter.unusedVariables false

/- Shallow embedding of the polygonService market-data client and of the
   OptionsChainScreen subscription / display logic.

   Conventions of the embedding:
   - every axios request is represented by the response the provider would
     deliver for it, as an explicit argument (or a field of a Provider
     record): a transport or HTTP failure is an Except.error carrying the
     error message, a 2xx JSON body is an Except.ok value whose optional
     fields are Option;
   - JS numbers are modelled as Rat;
   - the JS idiom x || 0 on a possibly-undefined number is orZero, and on an
     always-defined number it is jsOrZero (the identity, since 0 || 0 = 0). -/

/-- Provider-side error: the message of the thrown Error or of the transport
failure that axios would reject with. -/
abbrev ProvErr := String

/-- JS expression x || 0 where x may be undefined (none): a missing number
defaults to 0; a present numeric value v yields v (for v = 0 both sides are 0). -/
def orZero (x : Option Rat) : Rat := x.getD 0

/-- JS expression x || 0 on a number x that is always defined: the identity
(for x = 0 the result is 0 = x; NaN does not occur in the rational model). -/
def jsOrZero (x : Rat) : Rat := x

/-- Row of a polygon aggregates response (previous close or historical range). -/
structure AggRow where
  t : Int
  o : Rat
  h : Rat
  l : Rat
  c : Rat
  v : Rat
deriving DecidableEq

/-- The StockData interface of polygonService. -/
structure StockData where
  ticker : String
  name : Option String
  currentPrice : Rat
  previousClose : Rat
  change : Rat
  changePercent : Rat
deriving DecidableEq

/-- fetchStockPrice: one previous-close aggregates request; if the response
carries a non-empty results array, build the StockData from its first row
(change and percent computed client-side from close and open), otherwise
throw the Error with message "No data available"; the catch block rethrows,
so a transport failure propagates unchanged. -/
def fetchStockPrice (symbol : String) (resp : Except ProvErr (Option (List AggRow))) :
    Except ProvErr StockData :=
  match resp with
  | .error e => .error e
  | .ok results =>
    match results with
    | some (result :: _) =>
      let change := result.c - result.o
      let changePercent := change / result.o * 100
      .ok { ticker := symbol
            name := none
            currentPrice := result.c
            previousClose := result.o
            change := change
            changePercent := changePercent }
    | some [] => .error "No data available"
    | none => .error "No data available"

/-- Row of the ticker-search response. -/
structure TickerRow where
  ticker : String
  name : String
  market : String
  primary_exchange : String
  type : String
deriving DecidableEq

/-- Shape produced by the searchStocks mapping. -/
structure SymbolMatch where
  symbol : String
  name : String
  market : String
  primaryExchange : String
  type : String
deriving DecidableEq

/-- searchStocks: one ticker-search request; a present results field is
mapped to SymbolMatch records; an absent results field yields the empty
list; the catch block swallows any failure and returns the empty list. -/
def searchStocks (query : String) (resp : Except ProvErr (Option (List TickerRow))) :
    List SymbolMatch :=
  match resp with
  | .error _ => []
  | .ok none => []
  | .ok (some results) =>
    results.map fun item =>
      { symbol := item.ticker
        name := item.name
        market := item.market
        primaryExchange := item.primary_exchange
        type := item.type }

/-- The HistoricalPriceData interface of polygonService. -/
structure HistoricalPriceData where
  date : String
  «open» : Rat
  high : Rat
  close : Rat
  low : Rat
  volume : Rat
deriving DecidableEq

/-- fetchHistoricalPrices: one range-aggregates request; a present results
field is mapped to HistoricalPriceData rows, the epoch-millisecond field t
rendered to a date string by msToDate (the JS code uses
new Date(t).toISOString().split, which is not reproduced bit-for-bit here);
an absent results field yields the empty list; the catch block swallows any
failure and returns the empty list. -/
def fetchHistoricalPrices (symbol timespan fromDate toDate : String) (limit : Nat)
    (msToDate : Int → String) (resp : Except ProvErr (Option (List AggRow))) :
    List HistoricalPriceData :=
  match resp with
  | .error _ => []
  | .ok none => []
  | .ok (some results) =>
    results.map fun item =>
      { date := msToDate item.t
        «open» := item.o
        high := item.h
        low := item.l
        close := item.c
        volume := item.v }

/-- Exchanges block of the market-status payload. -/
structure MarketExchanges where
  nasdaq : String
  nyse : String
  otc : String
deriving DecidableEq

/-- Currencies block of the market-status payload. -/
structure MarketCurrencies where
  fx : String
  crypto : String
deriving DecidableEq

/-- Market-status payload: fetchMarketStatus returns response.data as is. -/
structure MarketStatus where
  market : String
  serverTime : String
  exchanges : MarketExchanges
  currencies : MarketCurrencies
deriving DecidableEq

/-- fetchMarketStatus: one market-status request whose body is returned
unchanged; the catch block swallows any failure and returns the synthesized
default object (market closed, nasdaq/nyse/otc closed, fx closed, crypto
open, serverTime the current instant, passed here as the now argument). -/
def fetchMarketStatus (resp : Except ProvErr MarketStatus) (now : String) : MarketStatus :=
  match resp with
  | .ok data => data
  | .error _ =>
    { market := "closed"
      serverTime := now
      exchanges := { nasdaq := "closed", nyse := "closed", otc := "closed" }
      currencies := { fx := "closed", crypto := "open" } }

/-- Row of the option-contract reference listing. -/
structure ContractRow where
  ticker : String
  underlying_ticker : String
  expiration_date : String
  strike_price : Rat
  contract_type : String
deriving DecidableEq

/-- Row of the last-trade response. -/
structure TradeRow where
  p : Rat
deriving DecidableEq

/-- Body of the last-trade response: results may be absent. -/
structure TradeResp where
  results : Option TradeRow
deriving DecidableEq

/-- A bid or ask block inside the option snapshot. -/
structure PriceQuote where
  p : Rat
deriving DecidableEq

/-- The day block inside the option snapshot. -/
structure DayRow where
  v : Rat
deriving DecidableEq

/-- The greeks block inside the option snapshot; every field may be absent. -/
structure GreeksRow where
  delta : Option Rat
  gamma : Option Rat
  theta : Option Rat
  vega : Option Rat
  rho : Option Rat
deriving DecidableEq

/-- The snapshot results object; every block may be absent. -/
structure SnapRow where
  bid : Option PriceQuote
  ask : Option PriceQuote
  open_interest : Option Rat
  day : Option DayRow
  implied_volatility : Option Rat
  greeks : Option GreeksRow
deriving DecidableEq

/-- Body of the option-snapshot response: results may be absent. -/
structure SnapshotResp where
  results : Option SnapRow
deriving DecidableEq

/-- The OptionGreeks interface of polygonService (rho optional). -/
structure OptionGreeks where
  delta : Rat
  gamma : Rat
  theta : Rat
  vega : Rat
  rho : Option Rat
deriving DecidableEq

/-- The OptionData interface of polygonService; optionType holds the
lowercased contract_type string. -/
structure OptionData where
  symbol : String
  underlyingSymbol : String
  expirationDate : String
  strikePrice : Rat
  optionType : String
  lastPrice : Rat
  bidPrice : Rat
  askPrice : Rat
  openInterest : Rat
  volume : Rat
  impliedVolatility : Rat
  greeks : OptionGreeks
deriving DecidableEq

/-- The object built by fetchOptionDetails from the two enrichment responses
(or its zero-valued default on error). -/
structure OptionDetails where
  lastPrice : Rat
  bidPrice : Rat
  askPrice : Rat
  openInterest : Rat
  volume : Rat
  impliedVolatility : Rat
  greeks : OptionGreeks
deriving DecidableEq

/-- All responses the provider would deliver to the options endpoints:
the contract listing without expiration filter (used by
fetchOptionsExpirations), the listing filtered by expiration date, and the
per-contract last-trade and snapshot enrichment responses. -/
structure Provider where
  expirationsResp : Except ProvErr (Option (List ContractRow))
  contractsResp : String → Except ProvErr (Option (List ContractRow))
  tradeResp : String → Except ProvErr TradeResp
  snapshotResp : String → Except ProvErr SnapshotResp

/-- JS Array.prototype.filter with the predicate
(value, index, self) => self.indexOf(value) === index, which keeps exactly
the first occurrence of each value; seen holds the values already kept. -/
def dedupFirstAux (seen : List String) : List String → List String
  | [] => []
  | x :: xs => if x ∈ seen then dedupFirstAux seen xs else x :: dedupFirstAux (x :: seen) xs

/-- Deduplication step of fetchOptionsExpirations (first occurrences kept). -/
def dedupFirst (xs : List String) : List String := dedupFirstAux [] xs

/-- JS Array.prototype.sort on an array of strings: the sorted (lexicographic,
ascending) permutation of the input. -/
def sortStrings (xs : List String) : List String := List.insertionSort (· ≤ ·) xs

/-- fetchOptionsExpirations: one unfiltered contract-listing request; if the
response carries a non-empty results array, map out the expiration dates,
drop duplicates, sort ascending; otherwise return the empty list; the catch
block rethrows, so a failed request propagates unchanged. -/
def fetchOptionsExpirations (env : Provider) (underlyingSymbol : String) :
    Except ProvErr (List String) :=
  match env.expirationsResp with
  | .error e => .error e
  | .ok none => .ok []
  | .ok (some []) => .ok []
  | .ok (some (r :: rs)) =>
    .ok (sortStrings (dedupFirst ((r :: rs).map ContractRow.expiration_date)))

/-- JS String.prototype.toLowerCase, character-wise (structural, so that
concrete strings evaluate inside the kernel). -/
def jsToLowerCase (s : String) : String := ⟨s.data.map Char.toLower⟩

/-- Zero-valued default OptionDetails returned by the catch handler of
fetchOptionDetails. -/
def zeroDetails : OptionDetails :=
  { lastPrice := 0
    bidPrice := 0
    askPrice := 0
    openInterest := 0
    volume := 0
    impliedVolatility := 0
    greeks := { delta := 0, gamma := 0, theta := 0, vega := 0, rho := some 0 } }

/-- fetchOptionDetails: last-trade request, then snapshot request, in
sequence; if either fails, the shared catch returns the zero-valued default
(so a trade failure means the snapshot request is never issued); otherwise
extract each field with the a?.b || 0 pattern of the source. -/
def fetchOptionDetails (env : Provider) (optionSymbol : String) : OptionDetails :=
  match env.tradeResp optionSymbol with
  | .error _ => zeroDetails
  | .ok tradeResponse =>
    match env.snapshotResp optionSymbol with
    | .error _ => zeroDetails
    | .ok snapshotResponse =>
      let lastPrice := orZero (tradeResponse.results.map TradeRow.p)
      let snapshot := snapshotResponse.results
      { lastPrice := lastPrice
        bidPrice := orZero ((snapshot.bind SnapRow.bid).map PriceQuote.p)
        askPrice := orZero ((snapshot.bind SnapRow.ask).map PriceQuote.p)
        openInterest := orZero (snapshot.bind SnapRow.open_interest)
        volume := orZero ((snapshot.bind SnapRow.day).map DayRow.v)
        impliedVolatility := orZero (snapshot.bind SnapRow.implied_volatility)
        greeks := { delta := orZero ((snapshot.bind SnapRow.greeks).bind GreeksRow.delta)
                    gamma := orZero ((snapshot.bind SnapRow.greeks).bind GreeksRow.gamma)
                    theta := orZero ((snapshot.bind SnapRow.greeks).bind GreeksRow.theta)
                    vega := orZero ((snapshot.bind SnapRow.greeks).bind GreeksRow.vega)
                    rho := some (orZero ((snapshot.bind SnapRow.greeks).bind GreeksRow.rho)) } }

/-- The async mapping applied by fetchOptionsData to each listed contract:
enrich via fetchOptionDetails and build the OptionData record. The
details.x || 0 fallbacks of the source are jsOrZero (details fields are
always-defined numbers), and details.greeks || defaultGreeks always takes
details.greeks because fetchOptionDetails always returns a greeks object
(an object is truthy in JS). -/
def enrichContract (env : Provider) (option : ContractRow) : OptionData :=
  let details := fetchOptionDetails env option.ticker
  { symbol := option.ticker
    underlyingSymbol := option.underlying_ticker
    expirationDate := option.expiration_date
    strikePrice := option.strike_price
    optionType := jsToLowerCase option.contract_type
    lastPrice := jsOrZero details.lastPrice
    bidPrice := jsOrZero details.bidPrice
    askPrice := jsOrZero details.askPrice
    openInterest := jsOrZero details.openInterest
    volume := jsOrZero details.volume
    impliedVolatility := jsOrZero details.impliedVolatility
    greeks := details.greeks }

/-- fetchOptionsData: resolve the expiration date (argument if present, else
first element of fetchOptionsExpirations, else throw the Error with message
"No expiration dates available"); then one filtered contract-listing
request; a non-empty results array is mapped through enrichContract
(Promise.all preserves order and never rejects because fetchOptionDetails
absorbs its own failures); an empty or absent results array yields the
empty list; the catch rethrows, so listing and expiration failures
propagate. -/
def fetchOptionsData (env : Provider) (underlyingSymbol : String)
    (expirationDate : Option String) : Except ProvErr (List OptionData) :=
  let resolved : Except ProvErr String :=
    match expirationDate with
    | some d => .ok d
    | none =>
      match fetchOptionsExpirations env underlyingSymbol with
      | .error e => .error e
      | .ok (d :: _) => .ok d
      | .ok [] => .error "No expiration dates available"
  match resolved with
  | .error e => .error e
  | .ok expDate =>
    match env.contractsResp expDate with
    | .error e => .error e
    | .ok none => .ok []
    | .ok (some []) => .ok []
    | .ok (some (r :: rs)) => .ok ((r :: rs).map (enrichContract env))

/-- JS String.prototype.includes: pat occurs as a contiguous substring of s
(checked character-list-wise; the empty pattern is always contained). -/
def strIncludesAux (pat : List Char) : List Char → Bool
  | [] => pat.isEmpty
  | c :: t => pat.isPrefixOf (c :: t) || strIncludesAux pat t

/-- JS s.includes(pat) on strings. -/
def strIncludes (s pat : String) : Bool := strIncludesAux pat.data s.data

/-- Comparator order of the filteredOptions sort: ascending strike price
(the JS comparator is (a, b) => a.strikePrice - b.strikePrice). -/
def strikeLe (a b : OptionData) : Prop := a.strikePrice ≤ b.strikePrice

instance : DecidableRel strikeLe :=
  fun a b => inferInstanceAs (Decidable (a.strikePrice ≤ b.strikePrice))

instance : IsTotal OptionData strikeLe :=
  ⟨fun a b => le_total a.strikePrice b.strikePrice⟩

instance : IsTrans OptionData strikeLe :=
  ⟨fun _ _ _ hab hbc => le_trans hab hbc⟩

/-- The filteredOptions derivation of OptionsChainScreen: keep the options of
the selected type whose strike price or open interest, rendered as text,
contains the filter string, then sort ascending by strike price. JS
Number.prototype.toString is the render parameter (its exact float
formatting is not reproduced); JS sort with a numeric comparator produces a
sorted permutation, embedded as insertion sort. -/
def filteredOptions (render : Rat → String) (options : List OptionData)
    (optionType filterText : String) : List OptionData :=
  List.insertionSort strikeLe
    (options.filter fun option =>
      option.optionType == optionType &&
      (filterText == "" ||
        strIncludes (render option.strikePrice) filterText ||
        strIncludes (render option.openInterest) filterText))

/-- Modelled from the spec: subscribeToOptionData and subscribeToStockPrice
are imported by OptionsChainScreen from polygonService but are not present
in the sources; the spec describes a push-update payload as a partial
record keyed by the subscribed symbol, so an update carries an optional
value for each OptionData field. -/
structure OptionUpdate where
  symbol : Option String
  underlyingSymbol : Option String
  expirationDate : Option String
  strikePrice : Option Rat
  optionType : Option String
  lastPrice : Option Rat
  bidPrice : Option Rat
  askPrice : Option Rat
  openInterest : Option Rat
  volume : Option Rat
  impliedVolatility : Option Rat
  greeks : Option OptionGreeks
deriving DecidableEq

/-- JS object spread of the update over the option record: every field
present in the update overrides the record field. -/
def spreadUpdate (opt : OptionData) (update : OptionUpdate) : OptionData :=
  { symbol := update.symbol.getD opt.symbol
    underlyingSymbol := update.underlyingSymbol.getD opt.underlyingSymbol
    expirationDate := update.expirationDate.getD opt.expirationDate
    strikePrice := update.strikePrice.getD opt.strikePrice
    optionType := update.optionType.getD opt.optionType
    lastPrice := update.lastPrice.getD opt.lastPrice
    bidPrice := update.bidPrice.getD opt.bidPrice
    askPrice := update.askPrice.getD opt.askPrice
    openInterest := update.openInterest.getD opt.openInterest
    volume := update.volume.getD opt.volume
    impliedVolatility := update.impliedVolatility.getD opt.impliedVolatility
    greeks := update.greeks.getD opt.greeks }

/-- The setOptions updater run by the subscribeToOptionData callback for the
contract with the given symbol: map over the previous list, spreading the
update into the record whose symbol matches and leaving every other record
as it is. -/
def mergeUpdate (prevOptions : List OptionData) (symbol : String)
    (update : OptionUpdate) : List OptionData :=
  prevOptions.map fun opt => if opt.symbol = symbol then spreadUpdate opt update else opt

/-- Subscription lifecycle events, in the order the screen performs them. -/
inductive SubEvent where
  | subStock (h : Nat)
  | stopStock (h : Nat)
  | subContract (h : Nat)
  | stopContract (h : Nat)
deriving DecidableEq

/-- Modelled from the spec: the state the OptionsChainScreen component holds
for its subscription lifecycle. The stop capabilities returned by the
missing subscribeToStockPrice / subscribeToOptionData are modelled as
handles (fresh naturals drawn from nextId); stockSub is
stockPriceUnsubscribeRef, registry is the optionUnsubscribesRef map (in
insertion order), options the options state. The log fields record the
externally observable subscribe / stop calls: contractSubLog every contract
handle ever created, contractStopLog / stockStopLog every stop invocation,
events all of them in program order. -/
structure VMState where
  nextId : Nat
  stockSub : Option Nat
  registry : List (String × Nat)
  options : List OptionData
  contractSubLog : List Nat
  contractStopLog : List Nat
  stockStopLog : List Nat
  events : List SubEvent
deriving DecidableEq

/-- State after the mount effect has stored the stock-price unsubscribe
capability (handle 0): the screen subscribes to the underlying quote first. -/
def initialVMState : VMState :=
  { nextId := 1
    stockSub := some 0
    registry := []
    options := []
    contractSubLog := []
    contractStopLog := []
    stockStopLog := []
    events := [.subStock 0] }

/-- JS Map.prototype.set on the subscription registry: when the symbol key
is already present its stored stop capability is overwritten in place —
without being invoked — and the entry keeps its insertion position;
otherwise the new entry is appended. -/
def registrySet (registry : List (String × Nat)) (symbol : String) (handle : Nat) :
    List (String × Nat) :=
  if symbol ∈ registry.map Prod.fst then
    registry.map fun p => if p.1 = symbol then (symbol, handle) else p
  else registry ++ [(symbol, handle)]

/-- The for-loop of loadOptionsData: subscribe to each fetched option in
order, storing each returned stop capability in the registry under the
option symbol via Map.set — an existing entry for the same symbol is
overwritten and its stop capability is left un-invoked. -/
def subscribeAll : List OptionData → VMState → VMState
  | [], st => st
  | option :: rest, st =>
    subscribeAll rest
      { st with
        nextId := st.nextId + 1
        registry := registrySet st.registry option.symbol st.nextId
        contractSubLog := st.contractSubLog ++ [st.nextId]
        events := st.events ++ [.subContract st.nextId] }

/-- loadOptionsData of OptionsChainScreen: first invoke every stop
capability in the registry and clear it; then, if the fetch succeeded,
replace the options state with the fetched list and subscribe to each
option; if the fetch failed, only the alert is shown (options keep their
previous value and the registry stays empty). -/
def loadOptionsData (fetched : Except ProvErr (List OptionData)) (st : VMState) : VMState :=
  let stops := st.registry.map Prod.snd
  let drained : VMState :=
    { st with
      registry := []
      contractStopLog := st.contractStopLog ++ stops
      events := st.events ++ stops.map SubEvent.stopContract }
  match fetched with
  | .error _ => drained
  | .ok optionsData => subscribeAll optionsData { drained with options := optionsData }

/-- The useEffect cleanup of OptionsChainScreen: invoke the stored
stock-price stop capability (when present) and null the ref, then invoke
every stop capability in the registry and clear it. -/
def unmountCleanup (st : VMState) : VMState :=
  let stockStops := match st.stockSub with | some h => [h] | none => []
  let stops := st.registry.map Prod.snd
  { st with
    stockSub := none
    registry := []
    stockStopLog := st.stockStopLog ++ stockStops
    contractStopLog := st.contractStopLog ++ stops
    events := st.events ++ stockStops.map SubEvent.stopStock ++ stops.map SubEvent.stopContract }

/-- Modelled from the spec: delivery of a push update through the contract
subscription with handle h. The callback fires only while that subscription
is live (its stop capability still in the registry, per the spec contract
that a stopped subscription delivers no further updates); when it fires it
runs the setOptions merge keyed by the subscribed contract symbol. -/
def deliverUpdate (st : VMState) (h : Nat) (update : OptionUpdate) : VMState :=
  match st.registry.find? (fun p => p.2 == h) with
  | some p => { st with options := mergeUpdate st.options p.1 update }
  | none => st

/-- A sequence of expiration-selection changes: each element is the fetch
outcome of the corresponding loadOptionsData call. -/
def runLoads (loads : List (Except ProvErr (List OptionData))) (st : VMState) : VMState :=
  loads.foldl (fun s r => loadOptionsData r s) st

/-- Bookkeeping invariant of the subscription registry: every registry
handle and every logged contract handle is below the allocation counter,
contract handles are never reused, and the handles ever subscribed are
exactly the live ones plus the stopped ones. -/
def VMWf (st : VMState) : Prop :=
  (∀ p ∈ st.registry, p.2 < st.nextId) ∧
  (∀ h ∈ st.contractSubLog, h < st.nextId) ∧
  st.contractSubLog.Nodup ∧
  st.contractSubLog.Perm (st.registry.map Prod.snd ++ st.contractStopLog)

instance (st : VMState) : Decidable (VMWf st) := by
  unfold VMWf
  infer_instance

theorem mem_dedupFirstAux (xs : List String) : ∀ (seen : List String) (a : String),
    a ∈ dedupFirstAux seen xs ↔ a ∈ xs ∧ a ∉ seen := by
  induction xs with
  | nil => intro seen a; simp [dedupFirstAux]
  | cons x xs ih =>
    intro seen a
    by_cases hx : x ∈ seen
    · rw [dedupFirstAux, if_pos hx, ih]
      simp only [List.mem_cons]
      constructor
      · rintro ⟨ha, hs⟩
        exact ⟨Or.inr ha, hs⟩
      · rintro ⟨ha | ha, hs⟩
        · exact absurd (ha.symm ▸ hx) hs
        · exact ⟨ha, hs⟩
    · rw [dedupFirstAux, if_neg hx]
      simp only [List.mem_cons, ih, List.mem_cons, not_or]
      constructor
      · rintro (rfl | ⟨ha, hne, hs⟩)
        · exact ⟨Or.inl rfl, hx⟩
        · exact ⟨Or.inr ha, hs⟩
      · rintro ⟨rfl | ha, hs⟩
        · exact Or.inl rfl
        · by_cases hax : a = x
          · exact Or.inl hax
          · exact Or.inr ⟨ha, hax, hs⟩

theorem nodup_dedupFirstAux (xs : List String) : ∀ seen, (dedupFirstAux seen xs).Nodup := by
  induction xs with
  | nil => intro seen; simp [dedupFirstAux]
  | cons x xs ih =>
    intro seen
    by_cases hx : x ∈ seen
    · rw [dedupFirstAux, if_pos hx]
      exact ih seen
    · rw [dedupFirstAux, if_neg hx]
      refine List.nodup_cons.mpr ⟨?_, ih (x :: seen)⟩
      intro hmem
      exact ((mem_dedupFirstAux xs (x :: seen) x).mp hmem).2 (List.mem_cons_self x seen)

theorem nodup_dedupFirst (xs : List String) : (dedupFirst xs).Nodup :=
  nodup_dedupFirstAux xs []

theorem mem_dedupFirst (xs : List String) (a : String) : a ∈ dedupFirst xs ↔ a ∈ xs := by
  rw [dedupFirst, mem_dedupFirstAux]
  simp

theorem sortStrings_perm (xs : List String) : List.Perm (sortStrings xs) xs :=
  List.perm_insertionSort (· ≤ ·) xs

theorem sortStrings_sorted (xs : List String) : (sortStrings xs).Sorted (· ≤ ·) :=
  List.sorted_insertionSort (· ≤ ·) xs

/-- C3: fetchOptionsExpirations propagates a failed request unchanged,
returns the empty sequence when the provider has no contracts, and for any
payload rows — whatever their order and however many duplicate expiration
dates they contain — returns a duplicate-free sequence, sorted strictly
ascending in lexicographic string order, containing exactly the expiration
dates occurring in the payload. -/
theorem fetchOptionsExpirations_sorted_nodup (env : Provider) (sym : String) :
    (∀ e, env.expirationsResp = .error e → fetchOptionsExpirations env sym = .error e) ∧
    (env.expirationsResp = .ok none → fetchOptionsExpirations env sym = .ok []) ∧
    (∀ rows, env.expirationsResp = .ok (some rows) →
      ∃ l, fetchOptionsExpirations env sym = .ok l ∧ l.Nodup ∧
        l.Sorted (· < ·) ∧
        ∀ a, (a ∈ l ↔ a ∈ rows.map ContractRow.expiration_date)) := by
  refine ⟨?_, ?_, ?_⟩
  · intro e he; simp [fetchOptionsExpirations, he]
  · intro h; simp [fetchOptionsExpirations, h]
  · intro rows hr
    match rows with
    | [] =>
      refine ⟨[], by simp [fetchOptionsExpirations, hr], by simp, by simp, by simp⟩
    | r :: rs =>
      have hnd : (sortStrings (dedupFirst ((r :: rs).map ContractRow.expiration_date))).Nodup :=
        (sortStrings_perm _).nodup_iff.mpr (nodup_dedupFirst _)
      refine ⟨sortStrings (dedupFirst ((r :: rs).map ContractRow.expiration_date)),
        by simp [fetchOptionsExpirations, hr], hnd, ?_, ?_⟩
      · exact (sortStrings_sorted _).lt_of_le hnd
      · intro a
        rw [(sortStrings_perm _).mem_iff, mem_dedupFirst]

/-- Concrete provider payload for the C3 witness: five rows, out of order,
with duplicate expiration dates. -/
def rowsC3 : List ContractRow :=
  [ { ticker := "O:AAPL240216C00150000", underlying_ticker := "AAPL",
      expiration_date := "2024-02-16", strike_price := 150, contract_type := "call" },
    { ticker := "O:AAPL240119C00150000", underlying_ticker := "AAPL",
      expiration_date := "2024-01-19", strike_price := 150, contract_type := "call" },
    { ticker := "O:AAPL240216P00150000", underlying_ticker := "AAPL",
      expiration_date := "2024-02-16", strike_price := 150, contract_type := "put" },
    { ticker := "O:AAPL240119P00150000", underlying_ticker := "AAPL",
      expiration_date := "2024-01-19", strike_price := 150, contract_type := "put" },
    { ticker := "O:AAPL240315C00150000", underlying_ticker := "AAPL",
      expiration_date := "2024-03-15", strike_price := 150, contract_type := "call" } ]

/-- Provider used by the C3 witness. -/
def envC3 : Provider :=
  { expirationsResp := .ok (some rowsC3)
    contractsResp := fun _ => .ok none
    tradeResp := fun _ => .error "unused"
    snapshotResp := fun _ => .error "unused" }

/-- C3 witness: the theorem applied to a concrete out-of-order payload with
duplicate expiration dates. -/
theorem fetchOptionsExpirations_sorted_nodup_witness :
    ∃ l, fetchOptionsExpirations envC3 "AAPL" = .ok l ∧ l.Nodup ∧
      l.Sorted (· < ·) ∧
      ∀ a, (a ∈ l ↔ a ∈ rowsC3.map ContractRow.expiration_date) :=
  (fetchOptionsExpirations_sorted_nodup envC3 "AAPL").2.2 rowsC3 rfl

/-- C5 counterexample: on a failed request fetchMarketStatus returns the
synthesized default whose currencies block reports crypto as open — the
returned object does not report every market closed. -/
theorem fetchMarketStatus_crypto_open :
    (fetchMarketStatus (.error "Network Error") "2026-01-01T00:00:00.000Z").currencies.crypto
      = "open" ∧ ("open" : String) ≠ "closed" :=
  ⟨rfl, by decide⟩

/-- C5 (amended): fetchMarketStatus never propagates a failure to its
caller: on any error it returns the synthesized default status — overall
market closed, every exchange (nasdaq, nyse, otc) closed and fx closed,
with crypto reported open — and on success it returns the provider payload
unchanged. -/
theorem fetchMarketStatus_never_fails (e : ProvErr) (now : String) (data : MarketStatus) :
    fetchMarketStatus (.error e) now =
      { market := "closed"
        serverTime := now
        exchanges := { nasdaq := "closed", nyse := "closed", otc := "closed" }
        currencies := { fx := "closed", crypto := "open" } } ∧
    fetchMarketStatus (.ok data) now = data :=
  ⟨rfl, rfl⟩

/-- C7: fetchStockPrice consumes a single previous-close response; with a
result row it returns currentPrice = close, previousClose = open,
change = close - open and changePercent = change / open * 100; with no
result row it fails with the "No data available" error, and a request
failure propagates unchanged. -/
theorem fetchStockPrice_spec (symbol : String) (result : AggRow) (rest : List AggRow)
    (e : ProvErr) :
    fetchStockPrice symbol (.ok (some (result :: rest))) =
      .ok { ticker := symbol
            name := none
            currentPrice := result.c
            previousClose := result.o
            change := result.c - result.o
            changePercent := (result.c - result.o) / result.o * 100 } ∧
    fetchStockPrice symbol (.ok (some [])) = .error "No data available" ∧
    fetchStockPrice symbol (.ok none) = .error "No data available" ∧
    fetchStockPrice symbol (.error e) = .error e :=
  ⟨rfl, rfl, rfl, rfl⟩

/-- C8: searchStocks and fetchHistoricalPrices are best-effort: any failure
yields the empty list, exactly as an absent or empty result set does, so a
caller cannot distinguish a provider error from no matches / no data. -/
theorem searchStocks_and_history_best_effort (query symbol timespan fromDate toDate : String)
    (limit : Nat) (msToDate : Int → String) (e : ProvErr) :
    searchStocks query (.error e) = [] ∧
    searchStocks query (.ok none) = [] ∧
    searchStocks query (.ok (some [])) = [] ∧
    fetchHistoricalPrices symbol timespan fromDate toDate limit msToDate (.error e) = [] ∧
    fetchHistoricalPrices symbol timespan fromDate toDate limit msToDate (.ok none) = [] ∧
    fetchHistoricalPrices symbol timespan fromDate toDate limit msToDate (.ok (some [])) = [] :=
  ⟨rfl, rfl, rfl, rfl, rfl, rfl⟩

/-- C4: applying the merge-update for a contract symbol preserves the list
length, spreads the update into every record whose symbol matches, leaves
every record whose symbol differs field-identical, and is a no-op on the
whole list when no record carries the symbol. -/
theorem mergeUpdate_frame (opts : List OptionData) (symbol : String) (update : OptionUpdate) :
    (mergeUpdate opts symbol update).length = opts.length ∧
    (∀ (i : Nat) (opt : OptionData), opts[i]? = some opt → opt.symbol = symbol →
      (mergeUpdate opts symbol update)[i]? = some (spreadUpdate opt update)) ∧
    (∀ (i : Nat) (opt : OptionData), opts[i]? = some opt → opt.symbol ≠ symbol →
      (mergeUpdate opts symbol update)[i]? = some opt) ∧
    ((∀ opt ∈ opts, opt.symbol ≠ symbol) → mergeUpdate opts symbol update = opts) := by
  refine ⟨by simp [mergeUpdate], ?_, ?_, ?_⟩
  · intro i opt hi hsym
    simp [mergeUpdate, List.getElem?_map, hi, hsym]
  · intro i opt hi hsym
    simp [mergeUpdate, List.getElem?_map, hi, hsym]
  · intro hall
    rw [mergeUpdate]
    conv_rhs => rw [← List.map_id opts]
    exact List.map_congr_left fun o ho => by simp [hall o ho]

/-- Greeks record used by concrete witness inputs. -/
def greeksW : OptionGreeks :=
  { delta := 1/2, gamma := 1/10, theta := -1/20, vega := 3/20, rho := some 0 }

/-- Concrete option record used by witness inputs. -/
def optW (s : String) (strike : Rat) : OptionData :=
  { symbol := s
    underlyingSymbol := "AAPL"
    expirationDate := "2024-01-19"
    strikePrice := strike
    optionType := "call"
    lastPrice := 5
    bidPrice := 4
    askPrice := 6
    openInterest := 100
    volume := 20
    impliedVolatility := 1/4
    greeks := greeksW }

/-- Concrete push update used by witness inputs: only pricing fields. -/
def updW : OptionUpdate :=
  { symbol := none
    underlyingSymbol := none
    expirationDate := none
    strikePrice := none
    optionType := none
    lastPrice := some 7
    bidPrice := some 6
    askPrice := some 8
    openInterest := none
    volume := some 25
    impliedVolatility := none
    greeks := none }

/-- C4 witness: on a concrete two-element list, the update for symbol A
merges into the A record, leaves the B record identical, and an update for
an absent symbol leaves the whole list unchanged. -/
theorem mergeUpdate_frame_witness :
    (mergeUpdate [optW "A" 100, optW "B" 105] "A" updW)[0]? =
      some (spreadUpdate (optW "A" 100) updW) ∧
    (mergeUpdate [optW "A" 100, optW "B" 105] "A" updW)[1]? = some (optW "B" 105) ∧
    mergeUpdate [optW "A" 100, optW "B" 105] "Z" updW = [optW "A" 100, optW "B" 105] :=
  ⟨(mergeUpdate_frame [optW "A" 100, optW "B" 105] "A" updW).2.1 0 (optW "A" 100) rfl rfl,
   (mergeUpdate_frame [optW "A" 100, optW "B" 105] "A" updW).2.2.1 1 (optW "B" 105) rfl
     (by decide),
   (mergeUpdate_frame [optW "A" 100, optW "B" 105] "Z" updW).2.2.2 (by decide)⟩

/-- C6: the display derivation is a pure function of the canonical list, the
selected type and the filter text; its output is a permutation of exactly
the contracts of the selected type whose rendered strike price or open
interest contains the filter string, it is sorted ascending by strike
price, and with the empty filter it keeps every contract of the selected
type. (Purity and non-mutation of the canonical list are inherent to the
functional embedding: the canonical list argument is untouched.) -/
theorem filteredOptions_spec (render : Rat → String) (options : List OptionData)
    (optionType filterText : String) :
    List.Perm (filteredOptions render options optionType filterText)
      (options.filter fun option =>
        option.optionType == optionType &&
        (filterText == "" ||
          strIncludes (render option.strikePrice) filterText ||
          strIncludes (render option.openInterest) filterText)) ∧
    (filteredOptions render options optionType filterText).Sorted strikeLe ∧
    List.Perm (filteredOptions render options optionType "")
      (options.filter fun option => option.optionType == optionType) := by
  refine ⟨List.perm_insertionSort _ _, List.sorted_insertionSort _ _, ?_⟩
  have hfe : (options.filter fun option =>
      option.optionType == optionType &&
      (("" : String) == "" ||
        strIncludes (render option.strikePrice) "" ||
        strIncludes (render option.openInterest) "")) =
      options.filter fun option => option.optionType == optionType :=
    List.filter_congr fun o ho => by simp
  unfold filteredOptions
  rw [hfe]
  exact List.perm_insertionSort _ _

/-- C1: with a non-empty contract listing, fetchOptionsData succeeds with
exactly one OptionData per listed contract, in listing order; a contract
whose enrichment fails (its last-trade or snapshot request errors) gets
every pricing field zero and all-zero Greeks, while a contract whose two
enrichment requests succeed is populated from those responses; an
enrichment failure never aborts the batch or propagates to the caller. -/
theorem fetchOptionsData_enrichment_isolated (env : Provider) (sym expDate : String)
    (rows : List ContractRow) (hrows : env.contractsResp expDate = .ok (some rows))
    (hne : rows ≠ []) :
    fetchOptionsData env sym (some expDate) = .ok (rows.map (enrichContract env)) ∧
    (rows.map (enrichContract env)).length = rows.length ∧
    (∀ row ∈ rows,
      ((∃ e, env.tradeResp row.ticker = .error e) ∨
       (∃ e, env.snapshotResp row.ticker = .error e)) →
      enrichContract env row =
        { symbol := row.ticker
          underlyingSymbol := row.underlying_ticker
          expirationDate := row.expiration_date
          strikePrice := row.strike_price
          optionType := jsToLowerCase row.contract_type
          lastPrice := 0
          bidPrice := 0
          askPrice := 0
          openInterest := 0
          volume := 0
          impliedVolatility := 0
          greeks := { delta := 0, gamma := 0, theta := 0, vega := 0, rho := some 0 } }) ∧
    (∀ row ∈ rows, ∀ tr sn, env.tradeResp row.ticker = .ok tr →
      env.snapshotResp row.ticker = .ok sn →
      enrichContract env row =
        { symbol := row.ticker
          underlyingSymbol := row.underlying_ticker
          expirationDate := row.expiration_date
          strikePrice := row.strike_price
          optionType := jsToLowerCase row.contract_type
          lastPrice := orZero (tr.results.map TradeRow.p)
          bidPrice := orZero ((sn.results.bind SnapRow.bid).map PriceQuote.p)
          askPrice := orZero ((sn.results.bind SnapRow.ask).map PriceQuote.p)
          openInterest := orZero (sn.results.bind SnapRow.open_interest)
          volume := orZero ((sn.results.bind SnapRow.day).map DayRow.v)
          impliedVolatility := orZero (sn.results.bind SnapRow.implied_volatility)
          greeks :=
            { delta := orZero ((sn.results.bind SnapRow.greeks).bind GreeksRow.delta)
              gamma := orZero ((sn.results.bind SnapRow.greeks).bind GreeksRow.gamma)
              theta := orZero ((sn.results.bind SnapRow.greeks).bind GreeksRow.theta)
              vega := orZero ((sn.results.bind SnapRow.greeks).bind GreeksRow.vega)
              rho := some (orZero ((sn.results.bind SnapRow.greeks).bind GreeksRow.rho)) } }) := by
  refine ⟨?_, by simp, ?_, ?_⟩
  · match rows, hne with
    | r :: rs, _ => simp [fetchOptionsData, hrows]
  · intro row hrow hfail
    rcases hfail with ⟨e, he⟩ | ⟨e, he⟩
    · simp only [enrichContract, fetchOptionDetails, he]
      rfl
    · cases htr : env.tradeResp row.ticker with
      | error e2 =>
        simp only [enrichContract, fetchOptionDetails, htr]
        rfl
      | ok tr =>
        simp only [enrichContract, fetchOptionDetails, htr, he]
        rfl
  · intro row hrow tr sn htr hsn
    simp only [enrichContract, fetchOptionDetails, htr, hsn]
    rfl

/-- One row of the C1 witness listing. -/
def rowC1 (t : String) (strike : Rat) (cty : String) : ContractRow :=
  { ticker := t
    underlying_ticker := "AAPL"
    expiration_date := "2024-01-19"
    strike_price := strike
    contract_type := cty }

/-- C1 witness listing: three contracts; enrichment for the second fails. -/
def rowsC1 : List ContractRow :=
  [rowC1 "O:AAPL240119C00100000" 100 "CALL",
   rowC1 "O:AAPL240119C00105000" 105 "CALL",
   rowC1 "O:AAPL240119P00100000" 100 "PUT"]

/-- Snapshot payload served for every contract of the C1 witness. -/
def snapC1 : SnapshotResp :=
  { results := some
      { bid := some { p := 4 }
        ask := some { p := 6 }
        open_interest := some 100
        day := some { v := 20 }
        implied_volatility := some (1/4)
        greeks := some { delta := some (1/2), gamma := some (1/10),
                         theta := some (-1/20), vega := some (3/20),
                         rho := some (1/100) } } }

/-- Provider of the C1 witness: three listed contracts and a failing
last-trade request for the second contract only. -/
def envC1 : Provider :=
  { expirationsResp := .ok none
    contractsResp := fun d => if d = "2024-01-19" then .ok (some rowsC1) else .ok none
    tradeResp := fun t =>
      if t = "O:AAPL240119C00105000" then .error "Request failed with status code 404"
      else .ok { results := some { p := 5 } }
    snapshotResp := fun _ => .ok snapC1 }

/-- C1 witness: three listed contracts with the second contract's enrichment
failing still produce a three-element result whose second entry has zeroed
pricing fields and Greeks. -/
theorem fetchOptionsData_enrichment_isolated_witness :
    fetchOptionsData envC1 "AAPL" (some "2024-01-19") =
      .ok (rowsC1.map (enrichContract envC1)) ∧
    (rowsC1.map (enrichContract envC1)).length = rowsC1.length ∧
    enrichContract envC1 (rowC1 "O:AAPL240119C00105000" 105 "CALL") =
      { symbol := "O:AAPL240119C00105000"
        underlyingSymbol := "AAPL"
        expirationDate := "2024-01-19"
        strikePrice := 105
        optionType := "call"
        lastPrice := 0
        bidPrice := 0
        askPrice := 0
        openInterest := 0
        volume := 0
        impliedVolatility := 0
        greeks := { delta := 0, gamma := 0, theta := 0, vega := 0, rho := some 0 } } := by
  have h := fetchOptionsData_enrichment_isolated envC1 "AAPL" "2024-01-19" rowsC1 rfl
    (by simp [rowsC1])
  refine ⟨h.1, h.2.1, ?_⟩
  have h2 := h.2.2.1 (rowC1 "O:AAPL240119C00105000" 105 "CALL") (by simp [rowsC1])
    (Or.inl ⟨"Request failed with status code 404", rfl⟩)
  exact h2.trans (by decide)

/-- C10: with the expirationDate argument omitted and an empty resolved
expiration list, fetchOptionsData throws the "No expiration dates
available" error, which propagates; with an empty or absent contract
listing it returns the empty list without error, both for a supplied
expiration date and for a date resolved as the earliest fetched
expiration. -/
theorem fetchOptionsData_empty_cases (env : Provider) (sym d : String) :
    (fetchOptionsExpirations env sym = .ok [] →
      fetchOptionsData env sym none = .error "No expiration dates available") ∧
    (env.contractsResp d = .ok (some []) → fetchOptionsData env sym (some d) = .ok []) ∧
    (env.contractsResp d = .ok none → fetchOptionsData env sym (some d) = .ok []) ∧
    (∀ rest, fetchOptionsExpirations env sym = .ok (d :: rest) →
      env.contractsResp d = .ok (some []) → fetchOptionsData env sym none = .ok []) ∧
    (∀ rest, fetchOptionsExpirations env sym = .ok (d :: rest) →
      env.contractsResp d = .ok none → fetchOptionsData env sym none = .ok []) := by
  refine ⟨?_, ?_, ?_, ?_, ?_⟩
  · intro h; simp [fetchOptionsData, h]
  · intro h; simp [fetchOptionsData, h]
  · intro h; simp [fetchOptionsData, h]
  · intro rest h1 h2; simp [fetchOptionsData, h1, h2]
  · intro rest h1 h2; simp [fetchOptionsData, h1, h2]

/-- Provider of the C10 witness: a contract universe that is empty both for
the unfiltered listing and for any expiration date. -/
def envC10 : Provider :=
  { expirationsResp := .ok (some [])
    contractsResp := fun _ => .ok (some [])
    tradeResp := fun _ => .error "unused"
    snapshotResp := fun _ => .error "unused" }

/-- Provider of the second C10 witness case: exactly one expiration date
resolves, and the contract listing for it is empty. -/
def envC10b : Provider :=
  { expirationsResp := .ok (some [rowC1 "O:AAPL240119C00100000" 100 "CALL"])
    contractsResp := fun _ => .ok (some [])
    tradeResp := fun _ => .error "unused"
    snapshotResp := fun _ => .error "unused" }

/-- C10 witness: the theorem applied to the empty-universe provider (omitted
date, no expirations; supplied date, empty listing) and to a provider whose
resolved earliest expiration has an empty listing. -/
theorem fetchOptionsData_empty_cases_witness :
    fetchOptionsData envC10 "AAPL" none = .error "No expiration dates available" ∧
    fetchOptionsData envC10 "AAPL" (some "2024-01-19") = .ok [] ∧
    fetchOptionsData envC10b "AAPL" none = .ok [] :=
  ⟨(fetchOptionsData_empty_cases envC10 "AAPL" "2024-01-19").1 rfl,
   (fetchOptionsData_empty_cases envC10 "AAPL" "2024-01-19").2.1 rfl,
   (fetchOptionsData_empty_cases envC10b "AAPL" "2024-01-19").2.2.2.1 [] rfl rfl⟩

theorem loadOptionsData_ok (data : List OptionData) (st : VMState) :
    loadOptionsData (.ok data) st = subscribeAll data
      { st with
        registry := []
        options := data
        contractStopLog := st.contractStopLog ++ st.registry.map Prod.snd
        events := st.events ++ (st.registry.map Prod.snd).map SubEvent.stopContract } := rfl

theorem loadOptionsData_error (e : ProvErr) (st : VMState) :
    loadOptionsData (.error e) st =
      { st with
        registry := []
        contractStopLog := st.contractStopLog ++ st.registry.map Prod.snd
        events := st.events ++ (st.registry.map Prod.snd).map SubEvent.stopContract } := rfl

theorem runLoads_cons (f : Except ProvErr (List OptionData))
    (fs : List (Except ProvErr (List OptionData))) (st : VMState) :
    runLoads (f :: fs) st = runLoads fs (loadOptionsData f st) := rfl

theorem subscribeAll_nextId (l : List OptionData) : ∀ st : VMState,
    (subscribeAll l st).nextId = st.nextId + l.length := by
  induction l with
  | nil => intro st; simp [subscribeAll]
  | cons o rest ih =>
    intro st
    rw [subscribeAll, ih]
    simp
    omega

theorem registrySet_mem (reg : List (String × Nat)) (sym : String) (n : Nat) :
    ∀ q ∈ registrySet reg sym n, q ∈ reg ∨ q.2 = n := by
  intro q hq
  rw [registrySet] at hq
  by_cases hk : sym ∈ reg.map Prod.fst
  · rw [if_pos hk] at hq
    obtain ⟨p, hp, hpe⟩ := List.mem_map.mp hq
    by_cases hps : p.1 = sym
    · rw [if_pos hps] at hpe
      right
      rw [← hpe]
    · rw [if_neg hps] at hpe
      left
      rw [← hpe]
      exact hp
  · rw [if_neg hk] at hq
    rcases List.mem_append.mp hq with hm | hm
    · exact Or.inl hm
    · right
      simp only [List.mem_singleton] at hm
      rw [hm]

theorem subscribeAll_registry_mem (l : List OptionData) : ∀ (st : VMState) (q : String × Nat),
    q ∈ (subscribeAll l st).registry → q ∈ st.registry ∨ st.nextId ≤ q.2 := by
  induction l with
  | nil => intro st q hq; exact Or.inl hq
  | cons o rest ih =>
    intro st q hq
    rcases ih _ q hq with hmem | hge
    · rcases registrySet_mem st.registry o.symbol st.nextId q hmem with hm | hm
      · exact Or.inl hm
      · right
        omega
    · right
      simp only at hge
      omega

theorem subscribeAll_stock (l : List OptionData) : ∀ st : VMState,
    (subscribeAll l st).stockSub = st.stockSub ∧
    (subscribeAll l st).stockStopLog = st.stockStopLog := by
  induction l with
  | nil => intro st; exact ⟨rfl, rfl⟩
  | cons o rest ih => intro st; exact ih _

theorem subscribeAll_events (l : List OptionData) : ∀ st : VMState, ∃ subs,
    (subscribeAll l st).events = st.events ++ subs ∧
    ∀ ev ∈ subs, ∃ h, ev = SubEvent.subContract h := by
  induction l with
  | nil => intro st; exact ⟨[], by simp [subscribeAll], by simp⟩
  | cons o rest ih =>
    intro st
    obtain ⟨subs, he, hsub⟩ := ih
      { st with
        nextId := st.nextId + 1
        registry := registrySet st.registry o.symbol st.nextId
        contractSubLog := st.contractSubLog ++ [st.nextId]
        events := st.events ++ [.subContract st.nextId] }
    refine ⟨[SubEvent.subContract st.nextId] ++ subs, ?_, ?_⟩
    · rw [subscribeAll, he]
      simp
    · intro ev hev
      rcases List.mem_append.mp hev with hm | hm
      · simp only [List.mem_singleton] at hm
        exact ⟨st.nextId, hm⟩
      · exact hsub ev hm

theorem vmwf_subscribeAll_distinct (l : List OptionData) : ∀ st : VMState,
    VMWf st → (l.map OptionData.symbol).Nodup →
    (∀ o ∈ l, o.symbol ∉ st.registry.map Prod.fst) →
    VMWf (subscribeAll l st) := by
  induction l with
  | nil => intro st h _ _; exact h
  | cons o rest ih =>
    intro st h hnd hkeys
    obtain ⟨hreg, hsub, hsnodup, hperm⟩ := h
    have hnd2 : o.symbol ∉ rest.map OptionData.symbol ∧ (rest.map OptionData.symbol).Nodup :=
      List.nodup_cons.mp (by simpa using hnd)
    have hkey : o.symbol ∉ st.registry.map Prod.fst := hkeys o (List.mem_cons_self o rest)
    have hset : registrySet st.registry o.symbol st.nextId =
        st.registry ++ [(o.symbol, st.nextId)] := by
      rw [registrySet, if_neg hkey]
    rw [subscribeAll, hset]
    apply ih
    · refine ⟨?_, ?_, ?_, ?_⟩
      · intro p hp
        rcases List.mem_append.mp hp with hm | hm
        · exact Nat.lt_succ_of_lt (hreg p hm)
        · simp only [List.mem_singleton] at hm
          subst hm
          exact Nat.lt_succ_self _
      · intro x hx
        rcases List.mem_append.mp hx with hm | hm
        · exact Nat.lt_succ_of_lt (hsub x hm)
        · simp only [List.mem_singleton] at hm
          subst hm
          exact Nat.lt_succ_self _
      · rw [List.nodup_append]
        refine ⟨hsnodup, List.nodup_singleton _, ?_⟩
        intro a ha hb
        simp only [List.mem_singleton] at hb
        subst hb
        exact absurd (hsub _ ha) (lt_irrefl _)
      · simp only [List.map_append, List.map_cons, List.map_nil, List.append_assoc]
        refine (hperm.append_right [st.nextId]).trans ?_
        rw [List.append_assoc]
        exact List.Perm.append_left _ (List.perm_append_comm)
    · exact hnd2.2
    · intro o2 ho2
      simp only [List.map_append, List.map_cons, List.map_nil, List.mem_append,
        List.mem_singleton, not_or]
      refine ⟨hkeys o2 (List.mem_cons_of_mem o ho2), ?_⟩
      intro hcontr
      exact hnd2.1 (hcontr ▸ List.mem_map_of_mem OptionData.symbol ho2)

theorem vmwf_drained (st : VMState) (opts : List OptionData)
    (hsub : ∀ h ∈ st.contractSubLog, h < st.nextId) (hnd : st.contractSubLog.Nodup)
    (hperm : st.contractSubLog.Perm (st.registry.map Prod.snd ++ st.contractStopLog)) :
    VMWf { st with
      registry := ([] : List (String × Nat))
      options := opts
      contractStopLog := st.contractStopLog ++ st.registry.map Prod.snd
      events := st.events ++ (st.registry.map Prod.snd).map SubEvent.stopContract } := by
  refine ⟨by simp, hsub, hnd, ?_⟩
  simp only [List.map_nil, List.nil_append]
  exact hperm.trans List.perm_append_comm

theorem vmwf_loadOptionsData_distinct (fetched : Except ProvErr (List OptionData))
    (st : VMState) (h : VMWf st)
    (hnd : ∀ data, fetched = .ok data → (data.map OptionData.symbol).Nodup) :
    VMWf (loadOptionsData fetched st) := by
  obtain ⟨hreg, hsub, hsnodup, hperm⟩ := h
  cases fetched with
  | error e =>
    rw [loadOptionsData_error]
    exact vmwf_drained st st.options hsub hsnodup hperm
  | ok data =>
    rw [loadOptionsData_ok]
    refine vmwf_subscribeAll_distinct data _ (vmwf_drained st data hsub hsnodup hperm)
      (hnd data rfl) ?_
    intro o ho
    simp

theorem vmwf_initial : VMWf initialVMState := by decide

theorem vmwf_runLoads_distinct (loads : List (Except ProvErr (List OptionData))) :
    ∀ st : VMState, VMWf st →
    (∀ data, Except.ok data ∈ loads → (data.map OptionData.symbol).Nodup) →
    VMWf (runLoads loads st) := by
  induction loads with
  | nil => intro st h _; exact h
  | cons f fs ih =>
    intro st h hnd
    rw [runLoads_cons]
    refine ih _ (vmwf_loadOptionsData_distinct f st h ?_) ?_
    · intro data hdf
      refine hnd data ?_
      rw [← hdf]
      exact List.mem_cons_self f fs
    · intro data hdm
      exact hnd data (List.mem_cons_of_mem f hdm)

theorem loadOptionsData_nextId (fetched : Except ProvErr (List OptionData)) (st : VMState) :
    st.nextId ≤ (loadOptionsData fetched st).nextId := by
  cases fetched with
  | error e => rw [loadOptionsData_error]
  | ok data =>
    rw [loadOptionsData_ok, subscribeAll_nextId]
    simp

theorem loadOptionsData_registry_ge (fetched : Except ProvErr (List OptionData)) (st : VMState) :
    ∀ q ∈ (loadOptionsData fetched st).registry, st.nextId ≤ q.2 := by
  cases fetched with
  | error e => intro q hq; rw [loadOptionsData_error] at hq; simp at hq
  | ok data =>
    intro q hq
    rw [loadOptionsData_ok] at hq
    rcases subscribeAll_registry_mem data _ q hq with hm | hge
    · simp at hm
    · exact hge

theorem loadOptionsData_stock (fetched : Except ProvErr (List OptionData)) (st : VMState) :
    (loadOptionsData fetched st).stockSub = st.stockSub ∧
    (loadOptionsData fetched st).stockStopLog = st.stockStopLog := by
  cases fetched with
  | error e => rw [loadOptionsData_error]; exact ⟨rfl, rfl⟩
  | ok data => rw [loadOptionsData_ok]; exact subscribeAll_stock data _

theorem runLoads_stock (loads : List (Except ProvErr (List OptionData))) :
    ∀ st : VMState, (runLoads loads st).stockSub = st.stockSub ∧
      (runLoads loads st).stockStopLog = st.stockStopLog := by
  induction loads with
  | nil => intro st; exact ⟨rfl, rfl⟩
  | cons f fs ih =>
    intro st
    rw [runLoads_cons]
    exact ⟨(ih _).1.trans (loadOptionsData_stock f st).1,
           (ih _).2.trans (loadOptionsData_stock f st).2⟩

theorem runLoads_registry_ge (loads : List (Except ProvErr (List OptionData))) :
    ∀ (st : VMState) (b : Nat), b ≤ st.nextId → (∀ q ∈ st.registry, b ≤ q.2) →
      ∀ q ∈ (runLoads loads st).registry, b ≤ q.2 := by
  induction loads with
  | nil => intro st b hb hreg q hq; exact hreg q hq
  | cons f fs ih =>
    intro st b hb hreg q hq
    rw [runLoads_cons] at hq
    refine ih (loadOptionsData f st) b (hb.trans (loadOptionsData_nextId f st)) ?_ q hq
    intro q' hq'
    exact hb.trans (loadOptionsData_registry_ge f st q' hq')

/-- C2: on an expiration-selection change, loadOptionsData first invokes the
stop capability of every contract subscription held in the registry — the
event log it appends begins with one stop event per old registry entry,
before any subscribe event — and every handle of the old registry is absent
from the registry from that call on (new handles are fresh), so a push
update delivered late through an old handle is a no-op on the view-model
state, whatever further loads follow the switch. -/
theorem loadOptionsData_drains_registry (st : VMState)
    (fetched : Except ProvErr (List OptionData)) (hwf : VMWf st) :
    (∃ subs, (loadOptionsData fetched st).events =
        st.events ++ (st.registry.map Prod.snd).map SubEvent.stopContract ++ subs ∧
        ∀ ev ∈ subs, ∃ h, ev = SubEvent.subContract h) ∧
    (∀ p ∈ st.registry, ∀ (moreLoads : List (Except ProvErr (List OptionData)))
        (u : OptionUpdate),
      deliverUpdate (runLoads moreLoads (loadOptionsData fetched st)) p.2 u =
        runLoads moreLoads (loadOptionsData fetched st)) := by
  constructor
  · cases fetched with
    | error e =>
      refine ⟨[], ?_, by simp⟩
      rw [loadOptionsData_error]
      simp
    | ok data =>
      obtain ⟨subs, he, hs⟩ := subscribeAll_events data
        { st with
          registry := []
          options := data
          contractStopLog := st.contractStopLog ++ st.registry.map Prod.snd
          events := st.events ++ (st.registry.map Prod.snd).map SubEvent.stopContract }
      refine ⟨subs, ?_, hs⟩
      rw [loadOptionsData_ok, he]
  · intro p hp moreLoads u
    have hlt : p.2 < st.nextId := hwf.1 p hp
    have hge : ∀ q ∈ (runLoads moreLoads (loadOptionsData fetched st)).registry,
        st.nextId ≤ q.2 :=
      runLoads_registry_ge moreLoads (loadOptionsData fetched st) st.nextId
        (loadOptionsData_nextId fetched st) (loadOptionsData_registry_ge fetched st)
    have hnone : (runLoads moreLoads (loadOptionsData fetched st)).registry.find?
        (fun q => q.2 == p.2) = none := by
      rw [List.find?_eq_none]
      intro q hq
      have hq2 := hge q hq
      simp only [beq_iff_eq]
      omega
    simp [deliverUpdate, hnone]

/-- Concrete mounted state for the C2 witness: contract subscriptions for
symbols A (handle 1) and B (handle 2) are live. -/
def stAB : VMState :=
  { nextId := 3
    stockSub := some 0
    registry := [("A", 1), ("B", 2)]
    options := [optW "A" 100, optW "B" 105]
    contractSubLog := [1, 2]
    contractStopLog := []
    stockStopLog := []
    events := [.subStock 0, .subContract 1, .subContract 2] }

/-- C2 witness: after switching from contracts A, B to contracts C, D, a
late push update delivered through the old handle of contract A leaves the
state unchanged. -/
theorem loadOptionsData_drains_registry_witness :
    deliverUpdate
      (runLoads [] (loadOptionsData (.ok [optW "C" 110, optW "D" 115]) stAB)) 1 updW =
      runLoads [] (loadOptionsData (.ok [optW "C" 110, optW "D" 115]) stAB) :=
  (loadOptionsData_drains_registry stAB (.ok [optW "C" 110, optW "D" 115])
    (by decide)).2 ("A", 1) (by decide) [] updW

/-- Load sequence of the C9 counterexample: one successful fetch whose list
carries the same contract symbol twice. -/
def loadsDup : List (Except ProvErr (List OptionData)) :=
  [.ok [optW "C" 110, optW "C" 115]]

/-- C9 counterexample: with a fetched list carrying a duplicate contract
symbol, Map.set overwrites the first handle's registry entry without
invoking its stop capability. Handle 1 is subscribed (subContract 1 appears
in the event log, and it was placed in the registry before being
overwritten by handle 2), yet after the unmount cleanup only handle 2 has
been stopped: handle 1 receives zero stop calls, so not every handle placed
in the registry receives exactly one stop call. -/
theorem unmount_abandons_overwritten_handle :
    (unmountCleanup (runLoads loadsDup initialVMState)).contractSubLog = [1, 2] ∧
    (unmountCleanup (runLoads loadsDup initialVMState)).events =
      [.subStock 0, .subContract 1, .subContract 2, .stopStock 0, .stopContract 2] ∧
    (unmountCleanup (runLoads loadsDup initialVMState)).contractStopLog.count 1 = 0 :=
  ⟨by decide, by decide, by decide⟩

/-- C9 (amended): provided every successfully fetched contract list carries
pairwise-distinct contract symbols — so Map.set never overwrites a live
registry entry — after an arbitrary sequence of expiration loads from
mount, the unmount cleanup empties the registry, nulls and stops the stored
underlying-quote stop capability (handle 0, stopped exactly once), and the
contract stop log becomes a permutation of the contract subscribe log:
every handle ever placed in the registry receives exactly one stop call and
only subscribed handles are stopped — no live handle is abandoned. -/
theorem unmount_stops_every_handle_distinct
    (loads : List (Except ProvErr (List OptionData)))
    (hdistinct : ∀ data, Except.ok data ∈ loads → (data.map OptionData.symbol).Nodup) :
    (unmountCleanup (runLoads loads initialVMState)).registry = [] ∧
    (unmountCleanup (runLoads loads initialVMState)).stockSub = none ∧
    (unmountCleanup (runLoads loads initialVMState)).stockStopLog = [0] ∧
    (∀ h ∈ (unmountCleanup (runLoads loads initialVMState)).contractSubLog,
      (unmountCleanup (runLoads loads initialVMState)).contractStopLog.count h = 1) ∧
    (∀ h ∈ (unmountCleanup (runLoads loads initialVMState)).contractStopLog,
      h ∈ (unmountCleanup (runLoads loads initialVMState)).contractSubLog) := by
  have hwf := vmwf_runLoads_distinct loads initialVMState vmwf_initial hdistinct
  have hstock := runLoads_stock loads initialVMState
  obtain ⟨hreg, hsub, hnd, hperm⟩ := hwf
  have hstop : (unmountCleanup (runLoads loads initialVMState)).contractStopLog =
      (runLoads loads initialVMState).contractStopLog ++
        (runLoads loads initialVMState).registry.map Prod.snd := rfl
  have hsubeq : (unmountCleanup (runLoads loads initialVMState)).contractSubLog =
      (runLoads loads initialVMState).contractSubLog := rfl
  have hperm2 : ((runLoads loads initialVMState).contractStopLog ++
      (runLoads loads initialVMState).registry.map Prod.snd).Perm
      (runLoads loads initialVMState).contractSubLog :=
    (hperm.trans List.perm_append_comm).symm
  refine ⟨rfl, rfl, ?_, ?_, ?_⟩
  · show (runLoads loads initialVMState).stockStopLog ++
      (match (runLoads loads initialVMState).stockSub with
        | some h => [h] | none => []) = [0]
    rw [hstock.1, hstock.2]
    rfl
  · intro h hmem
    rw [hstop]
    rw [hsubeq] at hmem
    rw [hperm2.count_eq]
    exact List.count_eq_one_of_mem hnd hmem
  · intro h hmem
    rw [hsubeq]
    rw [hstop] at hmem
    exact hperm2.mem_iff.mp hmem

/-- Load sequence of the C9 witness: one successful contract fetch with
distinct contract symbols. -/
def loadsC9 : List (Except ProvErr (List OptionData)) :=
  [.ok [optW "C" 110, optW "D" 115]]

/-- C9 witness: with one distinct-symbol load subscribing handles 1 and 2,
handle 1 is stopped exactly once by the time the unmount cleanup has run. -/
theorem unmount_stops_every_handle_distinct_witness :
    (unmountCleanup (runLoads loadsC9 initialVMState)).contractStopLog.count 1 = 1 :=
  (unmount_stops_every_handle_distinct loadsC9 (by
    intro data hd
    simp only [loadsC9, List.mem_singleton] at hd
    rw [Except.ok.inj hd]
    decide)).2.2.2.1 1 (by decide)
